import Mathlib

/-!
Verification development for `cfplot.py`: a script that reconstructs a
per-resource creation timeline for a CloudFormation stack (and its nested
stacks) from the stack's event log and renders it as a waterfall chart.

The embedding below translates the event-collection functions
(`get_stack_creation_events`, `retrieve_cf_events`) and the
timeline-builder fold (`update_data_for_event`, first pass of
`process_events`) into pure Lean functions.  Timestamps are modelled as
integers (`datetime` values are totally ordered and support subtraction;
they are always truthy in Python, so the source's `if x and y and z`
checks on timestamp fields are modelled as `Option.isSome` tests).
Python's insertion-ordered dictionaries are modelled as association
lists where assignment updates an existing key in place and appends a
fresh key at the end.  The AWS API is modelled as a total environment
`String → List Event` giving the (unsorted) event pages for each stack
name.
-/

namespace Cfplot

/-- One CloudFormation stack event, with the fields the script reads.
`ResourceStatusReason` is optional because the source reads it with
`event.get("ResourceStatusReason", "")`. -/
structure Event where
  StackName : String
  LogicalResourceId : String
  ResourceType : String
  ResourceStatus : String
  ResourceStatusReason : Option String
  PhysicalResourceId : String
  Timestamp : Int
deriving DecidableEq, Repr

/-- The per-resource timing record created by `update_data_for_event`.
`endT` models the Python key `"end"` (`end` is a Lean keyword). -/
structure ResourceData where
  identified : Option Int
  start : Option Int
  endT : Option Int
  duration : Option Int
  duration_i2s : Option Int
  duration_s2e : Option Int
deriving DecidableEq, Repr

/-- The fresh record installed on first sight of a (stack, resource) pair. -/
def emptyRD : ResourceData :=
  { identified := none, start := none, endT := none,
    duration := none, duration_i2s := none, duration_s2e := none }

/-- Insertion-ordered mapping from logical resource id to timing record. -/
abbrev ResourceMap := List (String × ResourceData)

/-- Insertion-ordered mapping from stack name to its resource map
(the script's `data` OrderedDict). -/
abbrev StackData := List (String × ResourceMap)

/-- Lookup in an insertion-ordered association list (Python `d[k]`). -/
def lookupA {α : Type} (k : String) : List (String × α) → Option α
  | [] => none
  | (k1, v) :: rest => if k1 = k then some v else lookupA k rest

/-- Assignment `d[k] = v` on an insertion-ordered association list:
updates an existing key in place, appends a fresh key at the end
(Python dict semantics). -/
def setA {α : Type} (k : String) (v : α) : List (String × α) → List (String × α)
  | [] => [(k, v)]
  | (k1, v1) :: rest => if k1 = k then (k1, v) :: rest else (k1, v1) :: setA k v rest

/-- The record stored for (stack, resource), defaulting to a fresh record
when the pair has not been seen (convenient total accessor for theorems). -/
def getRD (sn lrid : String) (data : StackData) : ResourceData :=
  (lookupA lrid ((lookupA sn data).getD [])).getD emptyRD

/-- Python `s.lower()` modelled character by character. -/
def strLower (s : String) : String := ⟨s.data.map Char.toLower⟩

/-- The status reason the script works with:
`event.get("ResourceStatusReason", "")`. -/
def reasonOf (e : Event) : String := e.ResourceStatusReason.getD ""

/-- The per-record state transition of `update_data_for_event`
(the chain of conditionals on lines 312-335 of the source), applied to
an event's status, lower-cased status reason and timestamp. -/
def stepRD (status reason : String) (ts : Int) (rd : ResourceData) : ResourceData :=
  if status = "CREATE_IN_PROGRESS" then
    if reason = "user initiated" then
      { rd with identified := some ts, start := some ts }
    else if reason = "resource creation initiated" then
      { rd with identified := if rd.identified.isNone then some ts else rd.identified,
                start := some ts }
    else
      if rd.identified.isNone then { rd with identified := some ts } else rd
  else if status = "CREATE_COMPLETE" then
    if rd.identified.isSome ∧ rd.start.isSome then
      { rd with endT := some ts,
                duration_i2s := some (rd.start.getD 0 - rd.identified.getD 0),
                duration_s2e := some (ts - rd.start.getD 0),
                duration := some (ts - rd.identified.getD 0) }
    else { rd with endT := some ts }
  else rd

/-- `update_data_for_event(event, data)`: ensure the stack map and the
resource record exist, then mutate the record according to the event. -/
def update_data_for_event (event : Event) (data : StackData) : StackData :=
  let sn := event.StackName
  let lrid := event.LogicalResourceId
  let stackMap := (lookupA sn data).getD []
  let rd := (lookupA lrid stackMap).getD emptyRD
  setA sn (setA lrid (stepRD event.ResourceStatus (strLower (reasonOf event))
    event.Timestamp rd) stackMap) data

/-- The first pass of `process_events`: fold every event through
`update_data_for_event`, starting from the given accumulator. -/
def process_events_data (events : List Event) (data : StackData) : StackData :=
  events.foldl (fun d e => update_data_for_event e d) data

/-- Comparison used by `all_events.sort(key=lambda x: x["Timestamp"])`. -/
def eventLE : Event → Event → Prop := fun a b => a.Timestamp ≤ b.Timestamp

instance : DecidableRel eventLE :=
  fun a b => inferInstanceAs (Decidable (a.Timestamp ≤ b.Timestamp))

instance : IsTotal Event eventLE := ⟨fun a b => Int.le_total a.Timestamp b.Timestamp⟩

instance : IsTrans Event eventLE := ⟨fun _ _ _ h1 h2 => Int.le_trans h1 h2⟩

/-- The drained, chronologically sorted event pages for a stack.
Python's `list.sort(key=...)` is a stable sort; any stable sort by the
same total preorder produces the same list, so the insertion sort used
here is extensionally the sort the source performs. -/
def sorted_events (stackname : String) (env : String → List Event) : List Event :=
  (env stackname).insertionSort eventLE

/-- The `start_event` predicate of `get_stack_creation_events`: first
CREATE_IN_PROGRESS event of stack type whose raw reason is exactly
"User Initiated". -/
def isStartEvent (e : Event) : Bool :=
  e.ResourceStatus == "CREATE_IN_PROGRESS"
    && e.ResourceType == "AWS::CloudFormation::Stack"
    && reasonOf e == "User Initiated"

/-- `start_event`: the first matching event in the sorted stream. -/
def start_event (stackname : String) (env : String → List Event) : Option Event :=
  (sorted_events stackname env).find? isStartEvent

/-- Python `stackname.split('/')` on the character list. -/
def splitSlash : List Char → List (List Char)
  | [] => [[]]
  | c :: cs =>
    let r := splitSlash cs
    if c = '/' then [] :: r
    else
      match r with
      | [] => [[c]]
      | y :: ys => (c :: y) :: ys

/-- Python `stackname.split('/')[-1]`. -/
def lastSlashPart (s : String) : String := ⟨(splitSlash s.data).getLastD []⟩

/-- `stack_logical_id`: logical id of the first stack-type event, with the
last path component of the stack name as fallback. -/
def stack_logical_id (stackname : String) (env : String → List Event) : String :=
  (((sorted_events stackname env).find?
      (fun e => e.ResourceType == "AWS::CloudFormation::Stack")).map
    Event.LogicalResourceId).getD (lastSlashPart stackname)

/-- `complete_event`: the first CREATE_COMPLETE stack-type event whose
logical id is the stack's own logical id. -/
def complete_event (stackname : String) (env : String → List Event) : Option Event :=
  (sorted_events stackname env).find?
    (fun e => e.ResourceStatus == "CREATE_COMPLETE"
      && e.ResourceType == "AWS::CloudFormation::Stack"
      && e.LogicalResourceId == stack_logical_id stackname env)

/-- The window test of the collection loop:
`start_time <= event["Timestamp"] <= complete_time`. -/
def inWindow (t1 t2 : Int) (e : Event) : Bool :=
  decide (t1 ≤ e.Timestamp) && decide (e.Timestamp ≤ t2)

/-- The nested-stack detection condition of `get_stack_creation_events`
(lines 109-112): stack type, physical id different from the fetched stack,
status CREATE_IN_PROGRESS, and a truthy (non-empty) physical id.  Note the
source tests the resource STATUS here, not the status reason. -/
def nestedStackCond (stackname : String) (e : Event) : Bool :=
  e.ResourceType == "AWS::CloudFormation::Stack"
    && e.PhysicalResourceId != stackname
    && e.ResourceStatus == "CREATE_IN_PROGRESS"
    && e.PhysicalResourceId != ""

/-- `get_stack_creation_events(stackname, cf_client)`: returns the events
in the closed [start, complete] window, the nested-stack dictionary
(physical id, creation timestamp, last write wins), and the completion
time; returns `([], [], none)` when either bounding event is missing. -/
def get_stack_creation_events (stackname : String) (env : String → List Event) :
    List Event × List (String × Int) × Option Int :=
  match start_event stackname env, complete_event stackname env with
  | some se, some ce =>
      let start_time := se.Timestamp
      let complete_time := ce.Timestamp
      let creation_events :=
        (sorted_events stackname env).filter (inWindow start_time complete_time)
      let nested_stacks :=
        (sorted_events stackname env).foldl
          (fun ns e =>
            if inWindow start_time complete_time e && nestedStackCond stackname e
            then setA e.PhysicalResourceId e.Timestamp ns else ns) []
      (creation_events, nested_stacks, some complete_time)
  | _, _ => ([], [], none)

/-- Comparison for `sorted(nested_stacks.items(), key=lambda x: x[1])`
(again a stable sort by a total preorder on the creation timestamps). -/
def pairLE : String × Int → String × Int → Prop := fun a b => a.2 ≤ b.2

instance : DecidableRel pairLE :=
  fun a b => inferInstanceAs (Decidable (a.2 ≤ b.2))

instance : IsTotal (String × Int) pairLE := ⟨fun a b => Int.le_total a.2 b.2⟩

instance : IsTrans (String × Int) pairLE := ⟨fun _ _ _ h1 h2 => Int.le_trans h1 h2⟩

/-- One iteration of the nested-stack loop in `retrieve_cf_events`:
when the nested stack name is truthy and it was created no later than the
inherited completion time, recurse (through `recur`, the recursive call at
the remaining fuel) and extend the accumulated events; otherwise the
iteration changes nothing.  The state is (events so far, visited set,
trace of stacks fetched so far). -/
def retrieveStep
    (recur : String → List String → List Event × List String × List String)
    (ct : Int) (st : List Event × List String × List String)
    (p : String × Int) : List Event × List String × List String :=
  if p.1 ≠ "" ∧ p.2 ≤ ct then
    let r := recur p.1 st.2.1
    (st.1 ++ r.1, r.2.1, st.2.2 ++ r.2.2)
  else st

/-- `retrieve_cf_events(stackname, profile, region, root_complete_time,
processed_stacks)`.  The extra `Nat` is recursion fuel (the Python
recursion is unbounded; every theorem below holds for every fuel, and
concrete runs use enough fuel for their graph).  Besides the collected
events and the updated visited set, the model returns the trace of stack
names on which a fetch (`get_stack_creation_events`) was actually
performed, in order — the model's observation of the network calls. -/
def retrieve_cf_events (env : String → List Event) :
    Nat → String → Option Int → List String → List Event × List String × List String
  | 0, _, _, visited => ([], visited, [])
  | fuel + 1, stackname, root_complete_time, visited =>
    if stackname = "" then ([], visited, [])
    else if stackname ∈ visited then ([], visited, [])
    else
      let visited1 := stackname :: visited
      let res := get_stack_creation_events stackname env
      match root_complete_time.or res.2.2 with
      | none => ([], visited1, [stackname])
      | some ct =>
          ((res.2.1.insertionSort pairLE).foldl
            (retrieveStep (fun ns vis => retrieve_cf_events env fuel ns (some ct) vis) ct)
            (res.1, visited1, [stackname]))

/-! ### Invariant used for the duration law -/

/-- Invariant of a timing record relative to a time bound `t` (the
timestamp of the event about to be processed): every recorded
identification/start timestamp is at most `t`, identification cannot be
later than start, a record can only have a start after it has an
identification, the three derived durations are non-negative, and the
total duration is the sum of the other two. -/
def GoodRD (rd : ResourceData) (t : Int) : Prop :=
  (rd.identified = none → rd.start = none) ∧
  (∀ i, rd.identified = some i → i ≤ t) ∧
  (∀ s, rd.start = some s → s ≤ t) ∧
  (∀ i s, rd.identified = some i → rd.start = some s → i ≤ s) ∧
  (∀ a, rd.duration_i2s = some a → 0 ≤ a) ∧
  (∀ b, rd.duration_s2e = some b → 0 ≤ b) ∧
  (∀ c, rd.duration = some c → 0 ≤ c) ∧
  (∀ a b c, rd.duration_i2s = some a → rd.duration_s2e = some b →
    rd.duration = some c → c = a + b)

/-- The invariant, over every record of the accumulator. -/
def GoodData (data : StackData) (t : Int) : Prop :=
  ∀ sn lrid, GoodRD (getRD sn lrid data) t

/-! ### Concrete fixtures for witnesses and counterexamples -/

/-- Shorthand constructor for fixture events. -/
def mkEvent (sn lrid ty st : String) (rsn : Option String) (ph : String)
    (t : Int) : Event :=
  ⟨sn, lrid, ty, st, rsn, ph, t⟩

/-- Environment in which no stack has any events. -/
def envEmpty : String → List Event := fun _ => []

/-- A root-stack creation event, used by the determinism witness. -/
def sampleEvent : Event :=
  mkEvent "s" "s" "AWS::CloudFormation::Stack" "CREATE_IN_PROGRESS"
    (some "User Initiated") "s" 0

/-- An event whose reason is "User Initiated" but whose resource id
differs from its stack name. -/
def cexEvent5 : Event :=
  mkEvent "root" "res1" "AWS::EC2::Instance" "CREATE_IN_PROGRESS"
    (some "User Initiated") "" 7

/-- First sighting of resource "r" (empty reason) at time 1. -/
def cexEvent6a : Event :=
  mkEvent "root" "r" "AWS::EC2::Instance" "CREATE_IN_PROGRESS" none "" 1

/-- Second empty-reason in-progress sighting of resource "r" at time 5. -/
def cexEvent6b : Event :=
  mkEvent "root" "r" "AWS::EC2::Instance" "CREATE_IN_PROGRESS" none "" 5

/-- Root-stack initiation at time 0. -/
def cexEvent7a : Event :=
  mkEvent "root" "root" "AWS::CloudFormation::Stack" "CREATE_IN_PROGRESS"
    (some "User Initiated") "root" 0

/-- Root-stack completion at time 5. -/
def cexEvent7b : Event :=
  mkEvent "root" "root" "AWS::CloudFormation::Stack" "CREATE_COMPLETE"
    none "root" 5

/-- A later in-progress event, after completion, at time 9. -/
def cexEvent7c : Event :=
  mkEvent "root" "root" "AWS::CloudFormation::Stack" "CREATE_IN_PROGRESS"
    (some "Resource creation initiated") "root" 9

/-- Initiation at time 5 (out-of-order stream). -/
def cexEvent8a : Event :=
  mkEvent "s" "s" "AWS::CloudFormation::Stack" "CREATE_IN_PROGRESS"
    (some "User Initiated") "s" 5

/-- Completion at the EARLIER time 3 (out-of-order stream). -/
def cexEvent8b : Event :=
  mkEvent "s" "s" "AWS::CloudFormation::Stack" "CREATE_COMPLETE" none "s" 3

/-- Environment with one nested stack: the root's events span times 0-10
and the nested stack "nestedX" runs from time 2 to time 5, strictly inside
the root's window. -/
def env4 : String → List Event := fun sn =>
  if sn = "root" then
    [mkEvent "root" "root" "AWS::CloudFormation::Stack" "CREATE_IN_PROGRESS"
       (some "User Initiated") "root" 0,
     mkEvent "root" "child" "AWS::CloudFormation::Stack" "CREATE_IN_PROGRESS"
       (some "Resource creation initiated") "nestedX" 1,
     mkEvent "root" "root" "AWS::CloudFormation::Stack" "CREATE_COMPLETE"
       none "root" 10]
  else if sn = "nestedX" then
    [mkEvent "nestedX" "child" "AWS::CloudFormation::Stack" "CREATE_IN_PROGRESS"
       (some "User Initiated") "nestedX" 2,
     mkEvent "nestedX" "child" "AWS::CloudFormation::Stack" "CREATE_COMPLETE"
       none "nestedX" 5]
  else []

/-- Root-stack initiation event of `env9` at time 0. -/
def cexEvent9r : Event :=
  mkEvent "root" "root" "AWS::CloudFormation::Stack" "CREATE_IN_PROGRESS"
    (some "User Initiated") "root" 0

/-- The nested-stack event of `env9`: stack type, physical id "n1", status
CREATE_IN_PROGRESS, and NO status reason at all. -/
def cexEvent9n : Event :=
  mkEvent "root" "child" "AWS::CloudFormation::Stack" "CREATE_IN_PROGRESS"
    none "n1" 1

/-- Root-stack completion event of `env9` at time 10. -/
def cexEvent9c : Event :=
  mkEvent "root" "root" "AWS::CloudFormation::Stack" "CREATE_COMPLETE"
    none "root" 10

/-- Environment whose root stream contains a nested-stack in-progress event
with an empty status reason. -/
def env9 : String → List Event := fun sn =>
  if sn = "root" then [cexEvent9r, cexEvent9n, cexEvent9c] else []

/-- Root initiation at time 0, for the duration-law witness. -/
def witEvent1a : Event :=
  mkEvent "ws" "ws" "AWS::CloudFormation::Stack" "CREATE_IN_PROGRESS"
    (some "User Initiated") "ws" 0

/-- Root completion at time 5, for the duration-law witness. -/
def witEvent1b : Event :=
  mkEvent "ws" "ws" "AWS::CloudFormation::Stack" "CREATE_COMPLETE" none "ws" 5

/-! ### Association-list lemmas -/

theorem lookupA_setA_self {α : Type} (k : String) (v : α) (l : List (String × α)) :
    lookupA k (setA k v l) = some v := by
  induction l with
  | nil => simp [setA, lookupA]
  | cons p rest ih =>
      obtain ⟨k1, v1⟩ := p
      by_cases h : k1 = k
      · simp [setA, h, lookupA]
      · simp [setA, h, lookupA, ih]

theorem lookupA_setA_ne {α : Type} (k k9 : String) (v : α) (l : List (String × α))
    (h : k9 ≠ k) : lookupA k9 (setA k v l) = lookupA k9 l := by
  have h2 : ¬ k = k9 := fun hh => h hh.symm
  induction l with
  | nil => simp [setA, lookupA, h2]
  | cons p rest ih =>
      obtain ⟨k1, v1⟩ := p
      by_cases h1 : k1 = k
      · subst h1
        simp [setA, lookupA, h2]
      · by_cases h3 : k1 = k9 <;> simp [setA, lookupA, h1, h3, ih, h]

/-- Everything in the result of `setA` is either the assigned pair or was
already present. -/
theorem mem_setA {α : Type} (k : String) (v : α) (l : List (String × α))
    (p : String × α) (hp : p ∈ setA k v l) : p = (k, v) ∨ p ∈ l := by
  induction l with
  | nil => simpa [setA] using hp
  | cons q rest ih =>
      obtain ⟨k1, v1⟩ := q
      by_cases h : k1 = k
      · subst h
        simp [setA] at hp
        rcases hp with h1 | h1
        · exact Or.inl (by simp [h1])
        · exact Or.inr (List.mem_cons_of_mem _ h1)
      · simp only [setA, if_neg h, List.mem_cons] at hp
        rcases hp with h1 | h1
        · exact Or.inr (by simp [h1])
        · rcases ih h1 with h2 | h2
          · exact Or.inl h2
          · exact Or.inr (List.mem_cons_of_mem _ h2)

/-- How `update_data_for_event` changes the record of an arbitrary
(stack, resource) pair: the event's own pair moves through `stepRD`, every
other pair is untouched. -/
theorem getRD_update (e : Event) (data : StackData) (sn lrid : String) :
    getRD sn lrid (update_data_for_event e data) =
      if sn = e.StackName ∧ lrid = e.LogicalResourceId then
        stepRD e.ResourceStatus (strLower (reasonOf e)) e.Timestamp (getRD sn lrid data)
      else getRD sn lrid data := by
  by_cases h1 : sn = e.StackName
  · subst h1
    by_cases h2 : lrid = e.LogicalResourceId
    · subst h2
      simp [update_data_for_event, getRD, lookupA_setA_self]
    · simp only [update_data_for_event, getRD, h2, and_false, if_false]
      rw [lookupA_setA_self, Option.getD_some, lookupA_setA_ne _ _ _ _ h2]
  · simp only [update_data_for_event, getRD, h1, false_and, if_false]
    rw [lookupA_setA_ne _ _ _ _ h1]

/-- Fold invariant principle used for the loops of the source. -/
theorem foldl_inv {α β : Type} (f : α → β → α) (P : α → Prop)
    (l : List β) (init : α) (h0 : P init)
    (hstep : ∀ a b, b ∈ l → P a → P (f a b)) : P (l.foldl f init) := by
  induction l generalizing init with
  | nil => exact h0
  | cons b t ih =>
      exact ih (f init b) (hstep init b (List.mem_cons_self b t) h0)
        (fun a b2 hb2 ha => hstep a b2 (List.mem_cons_of_mem b hb2) ha)

/-- Invariant of `retrieve_cf_events`: the visited set only grows, the
trace of fetched stacks has no duplicate, and every fetched stack was
unvisited when the run started and is visited when it ends. -/
theorem retrieve_inv (env : String → List Event) :
    ∀ (fuel : Nat) (sn : String) (rct : Option Int) (vis : List String),
      (∀ s, s ∈ vis → s ∈ (retrieve_cf_events env fuel sn rct vis).2.1) ∧
      (retrieve_cf_events env fuel sn rct vis).2.2.Nodup ∧
      (∀ s, s ∈ (retrieve_cf_events env fuel sn rct vis).2.2 →
        s ∉ vis ∧ s ∈ (retrieve_cf_events env fuel sn rct vis).2.1) := by
  intro fuel
  induction fuel with
  | zero =>
      intro sn rct vis
      simp [retrieve_cf_events]
  | succ fuel ih =>
      intro sn rct vis
      by_cases h1 : sn = ""
      · simp [retrieve_cf_events, h1]
      by_cases h2 : sn ∈ vis
      · simp [retrieve_cf_events, h1, h2]
      rcases hor : rct.or (get_stack_creation_events sn env).2.2 with _ | ct
      · simp only [retrieve_cf_events, if_neg h1, if_neg h2, hor]
        refine ⟨fun s hs => List.mem_cons_of_mem _ hs, List.nodup_singleton sn, ?_⟩
        intro s hs
        rw [List.mem_singleton] at hs
        subst hs
        exact ⟨h2, List.mem_cons_self _ _⟩
      · simp only [retrieve_cf_events, if_neg h1, if_neg h2, hor]
        have H := foldl_inv
          (retrieveStep (fun ns vis2 => retrieve_cf_events env fuel ns (some ct) vis2) ct)
          (fun st => (∀ s, s ∈ sn :: vis → s ∈ st.2.1) ∧ st.2.2.Nodup ∧
            (∀ s, s ∈ st.2.2 → s ∉ vis ∧ s ∈ st.2.1))
          ((get_stack_creation_events sn env).2.1.insertionSort pairLE)
          ((get_stack_creation_events sn env).1, sn :: vis, [sn])
          ?_ ?_
        · exact ⟨fun s hs => H.1 s (List.mem_cons_of_mem _ hs), H.2.1, H.2.2⟩
        · refine ⟨fun s hs => hs, List.nodup_singleton sn, ?_⟩
          intro s hs
          rw [List.mem_singleton] at hs
          subst hs
          exact ⟨h2, List.mem_cons_self _ _⟩
        · intro st p _ hP
          by_cases hcond : p.1 ≠ "" ∧ p.2 ≤ ct
          · simp only [retrieveStep, if_pos hcond]
            obtain ⟨A, B, C⟩ := ih p.1 (some ct) st.2.1
            refine ⟨fun s hs => A s (hP.1 s hs), ?_, ?_⟩
            · exact hP.2.1.append B
                (fun a ha hb => (C a hb).1 ((hP.2.2 a ha).2))
            · intro s hs
              rcases List.mem_append.1 hs with h3 | h3
              · exact ⟨(hP.2.2 s h3).1, A s (hP.2.2 s h3).2⟩
              · exact ⟨fun hv => (C s h3).1
                  (hP.1 s (List.mem_cons_of_mem _ hv)), (C s h3).2⟩
          · simp only [retrieveStep, if_neg hcond]
            exact hP

/-! ### Lemmas about the duration-law invariant -/

theorem GoodRD_mono (rd : ResourceData) (t t2 : Int) (h : t ≤ t2)
    (hg : GoodRD rd t) : GoodRD rd t2 := by
  obtain ⟨g0, g1, g2, g3, g4, g5, g6, g7⟩ := hg
  exact ⟨g0, fun i hi => le_trans (g1 i hi) h, fun s hs => le_trans (g2 s hs) h,
    g3, g4, g5, g6, g7⟩

theorem GoodRD_empty (t : Int) : GoodRD emptyRD t := by
  refine ⟨fun _ => rfl, ?_, ?_, ?_, ?_, ?_, ?_, ?_⟩ <;> intro <;> simp [emptyRD]

/-- The state transition preserves the invariant at the event's own
timestamp. -/
theorem GoodRD_step (status reason : String) (ts : Int) (rd : ResourceData)
    (hg : GoodRD rd ts) : GoodRD (stepRD status reason ts rd) ts := by
  obtain ⟨g0, g1, g2, g3, g4, g5, g6, g7⟩ := hg
  unfold stepRD
  by_cases hst : status = "CREATE_IN_PROGRESS"
  · rw [if_pos hst]
    by_cases hr1 : reason = "user initiated"
    · rw [if_pos hr1]
      refine ⟨by simp, ?_, ?_, ?_, g4, g5, g6, g7⟩ <;> intro x hx
      · simp at hx; omega
      · simp at hx; omega
      · intro hx2 hx3
        simp at hx2 hx3
        omega
    · rw [if_neg hr1]
      by_cases hr2 : reason = "resource creation initiated"
      · rw [if_pos hr2]
        cases hid : rd.identified with
        | none =>
            refine ⟨by simp, ?_, ?_, ?_, g4, g5, g6, g7⟩ <;> intro x hx
            · simp [hid] at hx; omega
            · simp at hx; omega
            · intro hx2 hx3
              simp [hid] at hx2 hx3
              omega
        | some i =>
            refine ⟨by simp [hid], ?_, ?_, ?_, g4, g5, g6, g7⟩ <;> intro x hx
            · simp [hid] at hx
              subst hx
              exact g1 i hid
            · simp at hx; omega
            · intro hx2 hx3
              simp [hid] at hx2
              simp at hx3
              subst hx2
              subst hx3
              exact g1 i hid
      · rw [if_neg hr2]
        cases hid : rd.identified with
        | none =>
            rw [if_pos (by simp [hid])]
            have hstart : rd.start = none := g0 hid
            refine ⟨by simp [hstart], ?_, ?_, ?_, g4, g5, g6, g7⟩ <;> intro x hx
            · simp at hx; omega
            · simp [hstart] at hx
            · intro hx2 hx3
              simp [hstart] at hx3
        | some i =>
            rw [if_neg (by simp [hid])]
            exact ⟨g0, g1, g2, g3, g4, g5, g6, g7⟩
  · rw [if_neg hst]
    by_cases hcc : status = "CREATE_COMPLETE"
    · rw [if_pos hcc]
      by_cases hboth : rd.identified.isSome ∧ rd.start.isSome
      · rw [if_pos hboth]
        obtain ⟨i, hid⟩ := Option.isSome_iff_exists.mp hboth.1
        obtain ⟨s, hstart⟩ := Option.isSome_iff_exists.mp hboth.2
        have hi := g1 i hid
        have hs := g2 s hstart
        have his := g3 i s hid hstart
        refine ⟨by simp [hid], ?_, ?_, ?_, ?_, ?_, ?_, ?_⟩
        · intro x hx
          simp [hid] at hx
          omega
        · intro x hx
          simp [hstart] at hx
          omega
        · intro x y hx hy
          simp [hid] at hx
          simp [hstart] at hy
          omega
        · intro a ha
          simp [hid, hstart] at ha
          omega
        · intro b hb
          simp [hid, hstart] at hb
          omega
        · intro c hc2
          simp [hid, hstart] at hc2
          omega
        · intro a b c ha hb hc2
          simp [hid, hstart] at ha hb hc2
          omega
      · rw [if_neg hboth]
        exact ⟨g0, g1, g2, g3, g4, g5, g6, g7⟩
    · rw [if_neg hcc]
      exact ⟨g0, g1, g2, g3, g4, g5, g6, g7⟩

theorem GoodData_mono (data : StackData) (t t2 : Int) (h : t ≤ t2)
    (hg : GoodData data t) : GoodData data t2 :=
  fun sn lrid => GoodRD_mono _ _ _ h (hg sn lrid)

theorem GoodData_update (e : Event) (data : StackData)
    (hg : GoodData data e.Timestamp) :
    GoodData (update_data_for_event e data) e.Timestamp := by
  intro sn lrid
  rw [getRD_update]
  by_cases hm : sn = e.StackName ∧ lrid = e.LogicalResourceId
  · rw [if_pos hm]
    exact GoodRD_step _ _ _ _ (hg sn lrid)
  · rw [if_neg hm]
    exact hg sn lrid

theorem GoodData_fold :
    ∀ (events : List Event) (data : StackData) (t : Int),
    GoodData data t → List.Pairwise eventLE events →
    (∀ e, e ∈ events → t ≤ e.Timestamp) →
    ∃ t2, GoodData (events.foldl (fun d e => update_data_for_event e d) data) t2 := by
  intro events
  induction events with
  | nil =>
      intro data t h _ _
      exact ⟨t, h⟩
  | cons e rest ih =>
      intro data t h hsort hbound
      simp only [List.foldl_cons]
      refine ih (update_data_for_event e data) e.Timestamp ?_ ?_ ?_
      · exact GoodData_update e data
          (GoodData_mono data t e.Timestamp
            (hbound e (List.mem_cons_self e rest)) h)
      · exact (List.pairwise_cons.mp hsort).2
      · exact (List.pairwise_cons.mp hsort).1

/-! ### Claim theorems -/

/-- C1: for every (deployment, resource) record produced by the timeline
builder from a chronologically sorted event list (the builder's input
contract), whenever the three derived durations are defined they satisfy
`duration = duration_i2s + duration_s2e` and all three are non-negative. -/
theorem duration_law (events : List Event)
    (hsorted : List.Pairwise eventLE events)
    (sn lrid : String) (a b c : Int)
    (ha : (getRD sn lrid (process_events_data events [])).duration_i2s = some a)
    (hb : (getRD sn lrid (process_events_data events [])).duration_s2e = some b)
    (hc : (getRD sn lrid (process_events_data events [])).duration = some c) :
    c = a + b ∧ 0 ≤ a ∧ 0 ≤ b ∧ 0 ≤ c := by
  have hbase : ∀ t, GoodData [] t := by
    intro t sn2 lrid2
    simp only [getRD, lookupA, Option.getD_none]
    exact GoodRD_empty t
  have hgood : ∃ t2, GoodData (process_events_data events []) t2 := by
    cases events with
    | nil => exact ⟨0, hbase 0⟩
    | cons e rest =>
        refine GoodData_fold (e :: rest) [] e.Timestamp (hbase _) hsorted ?_
        intro e2 he2
        rcases List.mem_cons.mp he2 with h | h
        · rw [h]
        · exact (List.pairwise_cons.mp hsorted).1 e2 h
  obtain ⟨t2, hg⟩ := hgood
  obtain ⟨g0, g1, g2, g3, g4, g5, g6, g7⟩ := hg sn lrid
  exact ⟨g7 a b c ha hb hc, g4 a ha, g5 b hb, g6 c hc⟩

/-- Witness for C1: the flat-deployment scenario (initiation at 0,
completion at 5) gives durations 0, 5, 5 which satisfy the law. -/
theorem duration_law_witness :
    (5 : Int) = 0 + 5 ∧ (0 : Int) ≤ 0 ∧ (0 : Int) ≤ 5 ∧ (0 : Int) ≤ 5 :=
  duration_law [witEvent1a, witEvent1b] (by decide) "ws" "ws" 0 5 5
    (by decide) (by decide) (by decide)

/-- C2: the event collector never fetches a deployment twice: a call on an
already-visited stack returns the empty list and performs no fetch, and
over a whole run the trace of fetched stacks is duplicate-free, for every
deployment graph and discovery order. -/
theorem collector_fetches_each_stack_at_most_once
    (env : String → List Event) (fuel : Nat) (sn : String)
    (rct : Option Int) (vis : List String) :
    (sn ∈ vis → retrieve_cf_events env fuel sn rct vis = ([], vis, [])) ∧
    (retrieve_cf_events env fuel sn rct vis).2.2.Nodup := by
  refine ⟨?_, (retrieve_inv env fuel sn rct vis).2.1⟩
  intro hmem
  cases fuel with
  | zero => simp [retrieve_cf_events]
  | succ fuel => by_cases h1 : sn = "" <;> simp [retrieve_cf_events, h1, hmem]

/-- Witness for C2: calling the collector on a stack already in the
visited set returns the empty list and fetches nothing. -/
theorem collector_fetches_each_stack_at_most_once_witness :
    retrieve_cf_events envEmpty 1 "a" none ["a"] = ([], ["a"], []) ∧
    (retrieve_cf_events envEmpty 1 "a" none ["a"]).2.2.Nodup :=
  ⟨(collector_fetches_each_stack_at_most_once envEmpty 1 "a" none ["a"]).1
      (by decide),
   (collector_fetches_each_stack_at_most_once envEmpty 1 "a" none ["a"]).2⟩

/-- C3: the timeline builder is a pure fold: running it on equal event
lists from equal accumulators yields equal DeploymentTimeline mappings
(equality of the insertion-ordered association lists, hence identical
insertion order); no state outside the accumulator is read or written. -/
theorem builder_deterministic (events1 events2 : List Event)
    (data1 data2 : StackData) (he : events1 = events2) (hd : data1 = data2) :
    process_events_data events1 data1 = process_events_data events2 data2 := by
  rw [he, hd]

/-- Witness for C3: two runs on the same one-event list agree. -/
theorem builder_deterministic_witness :
    process_events_data [sampleEvent] [] = process_events_data [sampleEvent] [] :=
  builder_deterministic [sampleEvent] [sampleEvent] [] [] rfl rfl

/-- Counterexample for C4: in `env4` the collector returns the parent's
events (timestamps 0, 1, 10) followed by the nested stack's events
(timestamps 2, 5); the pair (10, 2) across the boundary violates
ascending timestamp order, and this exact list is what `main` passes to
the timeline-builder fold without re-sorting. -/
theorem collector_output_not_sorted_cex :
    (retrieve_cf_events env4 3 "root" none []).1.map Event.Timestamp
        = [0, 1, 10, 2, 5] ∧
    ¬ List.Pairwise eventLE (retrieve_cf_events env4 3 "root" none []).1 := by
  decide

/-- C4 (amended): every single stack's segment — the list returned by
`get_stack_creation_events`, which `retrieve_cf_events` concatenates — is
sorted by timestamp ascending; sortedness across the boundary between a
parent's events and an appended nested deployment's events does not hold
(see the counterexample), and nothing re-sorts before the fold. -/
theorem stack_segment_sorted (stackname : String) (env : String → List Event) :
    List.Pairwise eventLE (get_stack_creation_events stackname env).1 := by
  rcases hs : start_event stackname env with _ | se <;>
    rcases hc : complete_event stackname env with _ | ce <;>
      simp only [get_stack_creation_events, hs, hc]
  · exact List.Pairwise.nil
  · exact List.Pairwise.nil
  · exact List.Pairwise.nil
  · exact List.Pairwise.sublist (List.filter_sublist _)
      (List.sorted_insertionSort eventLE (env stackname))

/-- Counterexample for C5: `cexEvent5` has reason "User Initiated" but its
resource id "res1" differs from its stack name "root"; the builder still
sets `identified = start = 7` — the identity condition claimed for the
root-identification rule is not checked by the code. -/
theorem root_identification_reason_only_cex :
    cexEvent5.LogicalResourceId ≠ cexEvent5.StackName ∧
    (getRD "root" "res1" (update_data_for_event cexEvent5 [])).identified
        = some 7 ∧
    (getRD "root" "res1" (update_data_for_event cexEvent5 [])).start = some 7 := by
  decide

/-- C5 (amended): the "user initiated" transition fires on the normalized
status reason alone — for every CREATE_IN_PROGRESS event whose lower-cased
reason is "user initiated", regardless of whether the resource identifier
equals the deployment identifier, the builder sets
`identified = start =` the event's timestamp. -/
theorem root_identification_fires_on_reason (e : Event) (data : StackData)
    (h1 : e.ResourceStatus = "CREATE_IN_PROGRESS")
    (h2 : strLower (reasonOf e) = "user initiated") :
    (getRD e.StackName e.LogicalResourceId
        (update_data_for_event e data)).identified = some e.Timestamp ∧
    (getRD e.StackName e.LogicalResourceId
        (update_data_for_event e data)).start = some e.Timestamp := by
  rw [getRD_update, if_pos ⟨rfl, rfl⟩, h1, h2]
  simp [stepRD]

/-- Witness for C5 (amended): applying the rule to `cexEvent5` stamps both
timestamps even though resource id and stack name differ. -/
theorem root_identification_fires_on_reason_witness :
    (getRD "root" "res1" (update_data_for_event cexEvent5 [])).identified
        = some 7 ∧
    (getRD "root" "res1" (update_data_for_event cexEvent5 [])).start = some 7 :=
  root_identification_fires_on_reason cexEvent5 [] (by decide) (by decide)

/-- Counterexample for C6: resource "r" is identified at time 1 with no
start; a second CREATE_IN_PROGRESS event with an empty reason at time 5
does NOT refresh `identified` — it stays 1, not the claimed 5. -/
theorem reidentification_cex :
    (getRD "root" "r" (process_events_data [cexEvent6a] [])).identified
        = some 1 ∧
    (getRD "root" "r" (process_events_data [cexEvent6a] [])).start = none ∧
    cexEvent6b.ResourceStatus = "CREATE_IN_PROGRESS" ∧
    reasonOf cexEvent6b = "" ∧
    (getRD "root" "r" (process_events_data [cexEvent6a, cexEvent6b] [])).identified
        ≠ some cexEvent6b.Timestamp := by
  decide

/-- C6 (amended): for a CREATE_IN_PROGRESS event whose reason is neither
"user initiated" nor "resource creation initiated" (in particular an
empty/unset reason), arriving for a record whose `identified` is already
set, the builder leaves the record entirely unchanged — `identified` keeps
its earlier value instead of being refreshed. -/
theorem reidentification_keeps_identified (e : Event) (data : StackData)
    (h1 : e.ResourceStatus = "CREATE_IN_PROGRESS")
    (h2 : strLower (reasonOf e) ≠ "user initiated")
    (h3 : strLower (reasonOf e) ≠ "resource creation initiated")
    (h4 : (getRD e.StackName e.LogicalResourceId data).identified.isSome) :
    getRD e.StackName e.LogicalResourceId (update_data_for_event e data)
      = getRD e.StackName e.LogicalResourceId data := by
  rw [getRD_update, if_pos ⟨rfl, rfl⟩, h1]
  obtain ⟨i, hi⟩ := Option.isSome_iff_exists.mp h4
  simp [stepRD, h2, h3, hi]

/-- Witness for C6 (amended): the record of `cexEvent6a` is untouched by
`cexEvent6b`. -/
theorem reidentification_keeps_identified_witness :
    getRD "root" "r"
        (update_data_for_event cexEvent6b (process_events_data [cexEvent6a] []))
      = getRD "root" "r" (process_events_data [cexEvent6a] []) :=
  reidentification_keeps_identified cexEvent6b (process_events_data [cexEvent6a] [])
    (by decide) (by decide) (by decide) (by decide)

/-- Counterexample for C7: after root "root" completes at time 5 (with all
three durations computed), the later CREATE_IN_PROGRESS event at time 9
with reason "Resource creation initiated" overwrites `start` from 0 to 9 —
the record does not stay unchanged. -/
theorem no_backward_transitions_cex :
    (getRD "root" "root" (process_events_data [cexEvent7a, cexEvent7b] [])).endT
        = some 5 ∧
    (getRD "root" "root" (process_events_data [cexEvent7a, cexEvent7b] [])).duration
        = some 5 ∧
    (getRD "root" "root"
        (process_events_data [cexEvent7a, cexEvent7b] [])).duration_i2s = some 0 ∧
    (getRD "root" "root"
        (process_events_data [cexEvent7a, cexEvent7b] [])).duration_s2e = some 5 ∧
    cexEvent7c.ResourceStatus = "CREATE_IN_PROGRESS" ∧
    (getRD "root" "root" (process_events_data [cexEvent7a, cexEvent7b] [])).start
        = some 0 ∧
    (getRD "root" "root"
        (process_events_data [cexEvent7a, cexEvent7b, cexEvent7c] [])).start
        = some 9 := by
  decide

/-- C7 (amended): once a record is completed, a later CREATE_IN_PROGRESS
event for the same (deployment, resource) pair leaves `end` and the three
derived durations unchanged; `identified` and `start` can however be
overwritten (by the "user initiated" or "resource creation initiated"
reasons, as the counterexample shows). -/
theorem completed_record_durations_frozen (e : Event) (data : StackData)
    (sn lrid : String) (te dv a b : Int)
    (h1 : e.ResourceStatus = "CREATE_IN_PROGRESS")
    (h2 : (getRD sn lrid data).endT = some te)
    (h3 : (getRD sn lrid data).duration = some dv)
    (h4 : (getRD sn lrid data).duration_i2s = some a)
    (h5 : (getRD sn lrid data).duration_s2e = some b) :
    (getRD sn lrid (update_data_for_event e data)).endT = some te ∧
    (getRD sn lrid (update_data_for_event e data)).duration = some dv ∧
    (getRD sn lrid (update_data_for_event e data)).duration_i2s = some a ∧
    (getRD sn lrid (update_data_for_event e data)).duration_s2e = some b := by
  rw [getRD_update]
  by_cases hm : sn = e.StackName ∧ lrid = e.LogicalResourceId
  · rw [if_pos hm, h1]
    unfold stepRD
    split_ifs <;> simp_all
  · rw [if_neg hm]
    exact ⟨h2, h3, h4, h5⟩

/-- Witness for C7 (amended): processing `cexEvent7c` after completion
keeps end = 5 and durations (5, 0, 5). -/
theorem completed_record_durations_frozen_witness :
    (getRD "root" "root"
        (update_data_for_event cexEvent7c
          (process_events_data [cexEvent7a, cexEvent7b] []))).endT = some 5 ∧
    (getRD "root" "root"
        (update_data_for_event cexEvent7c
          (process_events_data [cexEvent7a, cexEvent7b] []))).duration = some 5 ∧
    (getRD "root" "root"
        (update_data_for_event cexEvent7c
          (process_events_data [cexEvent7a, cexEvent7b] []))).duration_i2s
        = some 0 ∧
    (getRD "root" "root"
        (update_data_for_event cexEvent7c
          (process_events_data [cexEvent7a, cexEvent7b] []))).duration_s2e
        = some 5 :=
  completed_record_durations_frozen cexEvent7c
    (process_events_data [cexEvent7a, cexEvent7b] []) "root" "root" 5 5 0 5
    (by decide) (by decide) (by decide) (by decide) (by decide)

/-- Counterexample for C8: with completion (time 3) arriving before the
recorded start (time 5), the builder computes duration = -2 and stores it
in the record — the negative duration is not reported, not clamped, and
not rejected. -/
theorem negative_duration_stored_cex :
    (getRD "s" "s" (process_events_data [cexEvent8a, cexEvent8b] [])).duration
        = some (-2) ∧
    (getRD "s" "s" (process_events_data [cexEvent8a, cexEvent8b] [])).duration_s2e
        = some (-2) ∧
    ((-2 : Int) < 0) := by
  decide

/-- C8 (amended): the builder performs no negativity check at all — on a
CREATE_COMPLETE event for a record with `identified` and `start` present it
stores `start - identified`, `end - start` and `end - identified`
unconditionally, whatever their signs; a negative duration is silently
stored rather than reported. -/
theorem durations_stored_unconditionally (e : Event) (data : StackData)
    (i s : Int)
    (h1 : e.ResourceStatus = "CREATE_COMPLETE")
    (h2 : (getRD e.StackName e.LogicalResourceId data).identified = some i)
    (h3 : (getRD e.StackName e.LogicalResourceId data).start = some s) :
    (getRD e.StackName e.LogicalResourceId (update_data_for_event e data)).endT
        = some e.Timestamp ∧
    (getRD e.StackName e.LogicalResourceId
        (update_data_for_event e data)).duration_i2s = some (s - i) ∧
    (getRD e.StackName e.LogicalResourceId
        (update_data_for_event e data)).duration_s2e
        = some (e.Timestamp - s) ∧
    (getRD e.StackName e.LogicalResourceId (update_data_for_event e data)).duration
        = some (e.Timestamp - i) := by
  rw [getRD_update, if_pos ⟨rfl, rfl⟩, h1]
  simp [stepRD, h2, h3]

/-- Witness for C8 (amended): the out-of-order stream of the counterexample
stores endT = 3, i2s = 0, s2e = -2, duration = -2. -/
theorem durations_stored_unconditionally_witness :
    (getRD "s" "s"
        (update_data_for_event cexEvent8b
          (process_events_data [cexEvent8a] []))).endT = some 3 ∧
    (getRD "s" "s"
        (update_data_for_event cexEvent8b
          (process_events_data [cexEvent8a] []))).duration_i2s = some 0 ∧
    (getRD "s" "s"
        (update_data_for_event cexEvent8b
          (process_events_data [cexEvent8a] []))).duration_s2e = some (-2) ∧
    (getRD "s" "s"
        (update_data_for_event cexEvent8b
          (process_events_data [cexEvent8a] []))).duration = some (-2) := by
  have h := durations_stored_unconditionally cexEvent8b
    (process_events_data [cexEvent8a] []) 5 5 (by decide) (by decide) (by decide)
  exact h

/-- Counterexample for C9: in `env9` the nested-stack event `cexEvent9n`
has NO status reason at all (so it fails any status-reason condition), yet
the collector records ("n1", 1) as a nested stack and recursion fetches
"n1". -/
theorem nested_recursion_ignores_reason_cex :
    env9 "root" = [cexEvent9r, cexEvent9n, cexEvent9c] ∧
    reasonOf cexEvent9n = "" ∧
    cexEvent9n.PhysicalResourceId = "n1" ∧
    (get_stack_creation_events "root" env9).2.1 = [("n1", 1)] ∧
    (retrieve_cf_events env9 2 "root" none []).2.2 = ["root", "n1"] := by
  decide

/-- C9 (amended): the collector recurses only into nested stacks recorded
by the detection condition, which requires exactly: stack resource type, a
physical id that differs from the fetched deployment and is non-empty, and
resource STATUS "CREATE_IN_PROGRESS" — the status reason is not consulted.
Every recorded (physical id, time) entry comes from such an event. -/
theorem nested_recursion_condition (stackname : String)
    (env : String → List Event) (p : String × Int)
    (hp : p ∈ (get_stack_creation_events stackname env).2.1) :
    ∃ e, e ∈ env stackname ∧
      e.ResourceType = "AWS::CloudFormation::Stack" ∧
      e.PhysicalResourceId = p.1 ∧ p.1 ≠ stackname ∧ p.1 ≠ "" ∧
      e.ResourceStatus = "CREATE_IN_PROGRESS" ∧ e.Timestamp = p.2 := by
  rcases hs : start_event stackname env with _ | se <;>
    rcases hc : complete_event stackname env with _ | ce <;>
      simp only [get_stack_creation_events, hs, hc] at hp
  · simp at hp
  · simp at hp
  · simp at hp
  · have H := foldl_inv
      (fun ns e =>
        if inWindow se.Timestamp ce.Timestamp e && nestedStackCond stackname e
        then setA e.PhysicalResourceId e.Timestamp ns else ns)
      (fun ns => ∀ q, q ∈ ns →
        ∃ e, e ∈ env stackname ∧
          e.ResourceType = "AWS::CloudFormation::Stack" ∧
          e.PhysicalResourceId = q.1 ∧ q.1 ≠ stackname ∧ q.1 ≠ "" ∧
          e.ResourceStatus = "CREATE_IN_PROGRESS" ∧ e.Timestamp = q.2)
      (sorted_events stackname env) [] (by simp) ?_
    · exact H p hp
    · intro ns ev hev hP q hq
      dsimp only at hq
      by_cases hcond :
          (inWindow se.Timestamp ce.Timestamp ev && nestedStackCond stackname ev) = true
      · rw [if_pos hcond] at hq
        rcases mem_setA _ _ _ _ hq with h | h
        · have hmem : ev ∈ env stackname :=
            (List.perm_insertionSort eventLE (env stackname)).mem_iff.mp hev
          simp only [nestedStackCond, Bool.and_eq_true, beq_iff_eq, bne_iff_ne,
            ne_eq] at hcond
          obtain ⟨-, ⟨⟨hty, hph⟩, hstat⟩, hphne⟩ := hcond
          subst h
          exact ⟨ev, hmem, hty, rfl, hph, hphne, hstat, rfl⟩
        · exact hP q h
      · rw [if_neg hcond] at hq
        exact hP q hq

/-- Witness for C9 (amended): the entry ("n1", 1) recorded in `env9` comes
from an event with the four code conditions. -/
theorem nested_recursion_condition_witness :
    ∃ e, e ∈ env9 "root" ∧
      e.ResourceType = "AWS::CloudFormation::Stack" ∧
      e.PhysicalResourceId = "n1" ∧ "n1" ≠ "root" ∧ "n1" ≠ "" ∧
      e.ResourceStatus = "CREATE_IN_PROGRESS" ∧ e.Timestamp = 1 :=
  nested_recursion_condition "root" env9 ("n1", 1) (by decide)

/-- C10: the collector's per-deployment window — every event it returns
lies in the closed interval between the first CREATE_IN_PROGRESS stack
event whose reason is exactly "User Initiated" (case-sensitive) and the
stack's own CREATE_COMPLETE event; if either bounding event is missing,
the collector returns the empty triple rather than a partial window; and
the nested-stack loop leaves its state untouched (performs no fetch) for a
nested deployment created after the inherited completion time. -/
theorem collector_window (stackname : String) (env : String → List Event) :
    (∀ se ce, start_event stackname env = some se →
      complete_event stackname env = some ce →
      ∀ e, e ∈ (get_stack_creation_events stackname env).1 →
        se.Timestamp ≤ e.Timestamp ∧ e.Timestamp ≤ ce.Timestamp) ∧
    (start_event stackname env = none ∨ complete_event stackname env = none →
      get_stack_creation_events stackname env = ([], [], none)) ∧
    (∀ (recur : String → List String → List Event × List String × List String)
        (ct : Int) (st : List Event × List String × List String)
        (p : String × Int), ct < p.2 → retrieveStep recur ct st p = st) := by
  refine ⟨?_, ?_, ?_⟩
  · intro se ce hs hc e he
    simp only [get_stack_creation_events, hs, hc] at he
    have hw := List.of_mem_filter he
    simpa [inWindow] using hw
  · intro h
    rcases hs : start_event stackname env with _ | se <;>
      rcases hc : complete_event stackname env with _ | ce <;>
        simp only [get_stack_creation_events, hs, hc]
    rcases h with h | h
    · rw [hs] at h
      exact absurd h (by simp)
    · rw [hc] at h
      exact absurd h (by simp)
  · intro recur ct st p hp
    unfold retrieveStep
    rw [if_neg]
    intro hcontra
    exact absurd hcontra.2 (not_le.mpr hp)

/-- Witness for C10: the window bounds hold for `env9`'s event at time 1;
a stack with no events yields the empty triple; and a nested entry created
at time 5 with inherited completion time 0 is skipped with the loop state
unchanged. -/
theorem collector_window_witness :
    ((0 : Int) ≤ 1 ∧ (1 : Int) ≤ 10) ∧
    get_stack_creation_events "x" envEmpty = ([], [], none) ∧
    retrieveStep (fun _ vis => ([], vis, [])) 0 ([], [], []) ("n", 5)
        = ([], [], []) :=
  ⟨(collector_window "root" env9).1 cexEvent9r cexEvent9c (by decide) (by decide)
      cexEvent9n (by decide),
   (collector_window "x" envEmpty).2.1 (Or.inl (by decide)),
   (collector_window "x" envEmpty).2.2 (fun _ vis => ([], vis, [])) 0
      ([], [], []) ("n", 5) (by decide)⟩

end Cfplot
